import Mathlib

/-!
Verification of the genui themed-UI generation backend.

Each definition below is a shallow embedding of a function of the
repository, translated from its TypeScript source.  External effects
(HTTP fetches, the sharp image library, JSON.parse) are modelled by
explicit oracle parameters ("worlds"), so that every definition is an
executable Lean function; stateful control flow is modelled by explicit
traces of the externally visible actions.  The source file and lines of
every embedded function are named in its doc comment.
-/

namespace GenUI

/-! ## JavaScript runtime value model

JSON-representable JavaScript values.  `undefined` is not a constructor:
expressions that can evaluate to `undefined` (property access, optional
chaining, `traversePath`) are modelled with `Option JsValue`, with `none`
playing the role of `undefined`. -/

inductive JsValue where
  | str (s : String)
  | num (n : Int)
  | bool (b : Bool)
  | null
  | arr (elems : List JsValue)
  | obj (fields : List (String × JsValue))

/-- Lookup of an own property on an object field list (first match wins;
object field lists built by the embedding never hold duplicate keys). -/
def jsObjGet : List (String × JsValue) → String → Option JsValue
  | [], _ => none
  | (k, v) :: rest, key => if k = key then some v else jsObjGet rest key

/-- The decimal value of one character, if it is a digit. -/
def charDigit? (c : Char) : Option Nat :=
  if 48 ≤ c.toNat && c.toNat ≤ 57 then some (c.toNat - 48) else none

def digitsToNatAux : List Char → Nat → Option Nat
  | [], acc => some acc
  | c :: rest, acc =>
    match charDigit? c with
    | some d => digitsToNatAux rest (acc * 10 + d)
    | none => none

/-- A canonical array-index string (`"0"`, `"1"`, ..., with no leading
zeros), the strings under which JavaScript exposes array elements. -/
def jsCanonicalIndex? (s : String) : Option Nat :=
  match s.data with
  | [] => none
  | ['0'] => some 0
  | '0' :: _ => none
  | cs => digitsToNatAux cs 0

/-- Element of an array at a canonical numeric string index, modelling
JavaScript index access such as `a["0"]`. -/
def jsArrGet (elems : List JsValue) (key : String) : Option JsValue :=
  match jsCanonicalIndex? key with
  | some i => elems.get? i
  | none => none

/-- Property access `v[key]`, returning `none` for `undefined`.  Access on
primitives and `null` yields `undefined` here; the embedded code only
accesses plain data properties, never `String.prototype` members. -/
def jsGet : JsValue → String → Option JsValue
  | .obj fields, key => jsObjGet fields key
  | .arr elems, key => jsArrGet elems key
  | _, _ => none

/-- JavaScript truthiness of a value. -/
def jsTruthy : JsValue → Bool
  | .str s => !(s = "")
  | .num n => !(n = 0)
  | .bool b => b
  | .null => false
  | .arr _ => true
  | .obj _ => true

/-- Truthiness of a possibly-`undefined` value (`undefined` is falsy). -/
def jsTruthyO : Option JsValue → Bool
  | none => false
  | some v => jsTruthy v

/-- `typeof v`. -/
def jsTypeof : JsValue → String
  | .str _ => "string"
  | .num _ => "number"
  | .bool _ => "boolean"
  | .null => "object"
  | .arr _ => "object"
  | .obj _ => "object"

/-- `typeof v === "object" && v !== null`, the object check used by
`parseChatMessages` (arrays pass this check, `null` does not). -/
def jsIsObjectNonNull : JsValue → Bool
  | .arr _ => true
  | .obj _ => true
  | _ => false

mutual

/-- JavaScript string coercion `String(v)` / template-literal
interpolation (objects print as `[object Object]`, arrays join their
elements with commas, `null` prints as `null`). -/
def jsToString : JsValue → String
  | .str s => s
  | .num n => toString n
  | .bool b => if b then "true" else "false"
  | .null => "null"
  | .obj _ => "[object Object]"
  | .arr elems => String.intercalate "," (jsToStringList elems)

/-- Elementwise coercion used by `Array.prototype.toString` (a `null`
element contributes the empty string). -/
def jsToStringList : List JsValue → List String
  | [] => []
  | .null :: rest => "" :: jsToStringList rest
  | v :: rest => jsToString v :: jsToStringList rest

end

/-- Template-literal interpolation of a possibly-`undefined` value. -/
def jsToStringO : Option JsValue → String
  | none => "undefined"
  | some v => jsToString v

/-- Assignment of one key into an object field list, as JavaScript object
assignment: an existing key is overwritten in place, a new key is
appended. -/
def jsSetKey : List (String × JsValue) → String → JsValue → List (String × JsValue)
  | [], key, v => [(key, v)]
  | (k, w) :: rest, key, v =>
    if k = key then (k, v) :: rest else (k, w) :: jsSetKey rest key v

/-- The own enumerable entries contributed by `{...v}` spread of a
possibly-`undefined` value: objects contribute their fields, arrays their
indexed elements, `undefined`/`null`/primitives contribute nothing
(string character spread is irrelevant to the embedded code and elided). -/
def jsSpreadFields : Option JsValue → List (String × JsValue)
  | some (.obj fields) => fields
  | some (.arr elems) => (elems.enum.map fun p => (toString p.1, p.2))
  | _ => []

/-- Object-literal spread `{...a, ...b, ...}`: the entries of each source are
assigned left to right, so a later source overwrites an earlier one on a
shared key. -/
def jsSpreadInto (fields : List (String × JsValue)) (src : Option JsValue) :
    List (String × JsValue) :=
  (jsSpreadFields src).foldl (fun acc p => jsSetKey acc p.1 p.2) fields

/-! ## Error and result types

`AppError` is embedded from `src/unnamed/part_007` (`utils.ts`) lines
1-38; `Result` mirrors the `Result<T>` type of the repository. -/

inductive AppError where
  | MissingApiKey
  | HttpError (status : Nat) (statusText : String) (detail : JsValue)
  | FetchError (detail : String)
  | NoResponseContent
  | InvalidResponseJson
  | PaletteError (detail : String)
  | InvalidImageUrl (detail : String)
  | InvalidChatMessages (detail : String)
  | MissingMetadata (detail : String)
  | DownsampleError (detail : String)
  | StitchingError (detail : String)
  | InvalidFontName
  | InvalidParameters
  | RequestFailed
  | FallbackFailed

inductive Result (α : Type) where
  | ok (value : α)
  | err (error : AppError)

/-! ## External LLM client (`sendChatRequest`, `parseChatResponse`)

Embedded from `src/unnamed/part_015` (`chat.ts`).  The single `fetch` to
the completions endpoint is modelled by an `HttpOutcome`; `JSON.parse` is
modelled by the oracle `parseJson` (with `none` standing for a thrown
`SyntaxError`, whose message the oracle `parseErrMsg` supplies). -/

inductive HttpOutcome where
  | threw (msg : String)
  | resp (ok : Bool) (status : Nat) (statusText : String) (body : String)

structure ChatWorld where
  apiKey : Option String
  outcome : HttpOutcome
  parseJson : String → Option JsValue
  parseErrMsg : String → String

/-- `process.env.OPENAI_API_KEY` truthiness: absent or empty is falsy. -/
def apiKeyFalsy : Option String → Bool
  | none => true
  | some s => s = ""

/-- Embeds `sendChatRequest`, `src/unnamed/part_015` lines 500-544.  A
non-OK response body is parsed as JSON for the error detail, falling back
to the raw text; an OK response body that fails `response.json()` throws
inside the `try`, surfacing as `FetchError`. -/
def sendChatRequest (w : ChatWorld) : Result JsValue :=
  if apiKeyFalsy w.apiKey then .err .MissingApiKey
  else
    match w.outcome with
    | .threw msg => .err (.FetchError msg)
    | .resp ok status statusText body =>
      if !ok then
        .err (.HttpError status statusText
          (match w.parseJson body with
           | some j => j
           | none => .str body))
      else
        match w.parseJson body with
        | some data => .ok data
        | none => .err (.FetchError (w.parseErrMsg body))

/-- Optional-chaining access `value?.choices?.[0]?.message?.content`. -/
def contentOfEnvelope (value : JsValue) : Option JsValue :=
  match jsGet value "choices" with
  | none => none
  | some choices =>
    match jsGet choices "0" with
    | none => none
    | some choice =>
      match jsGet choice "message" with
      | none => none
      | some message => jsGet message "content"

/-- Embeds `parseChatResponse`, `src/unnamed/part_015` lines 317-338.
`JSON.parse(content)` coerces its argument to a string first. -/
def parseChatResponse (parseJson : String → Option JsValue) :
    Result JsValue → Result JsValue
  | .err e => .err e
  | .ok value =>
    match contentOfEnvelope value with
    | none => .err .NoResponseContent
    | some content =>
      if !jsTruthy content then .err .NoResponseContent
      else
        match parseJson (jsToString content) with
        | some parsed => .ok parsed
        | none => .err .InvalidResponseJson

/-- The error constructors named by the spec for the LLM client
(`MissingApiKey`, `HttpError`, `FetchError`, `NoResponseContent`,
`InvalidResponseJson`). -/
def isClientError : AppError → Prop
  | .MissingApiKey => True
  | .HttpError _ _ _ => True
  | .FetchError _ => True
  | .NoResponseContent => True
  | .InvalidResponseJson => True
  | _ => False

/-- The composed client call `sendChatRequest(payload).then(parseChatResponse)`. -/
def chatClientCall (w : ChatWorld) : Result JsValue :=
  parseChatResponse w.parseJson (sendChatRequest w)

/-! ## Chat message parsing (`parseChatMessages`)

Embedded from `src/unnamed/part_015` (`chat.ts`) lines 340-492. -/

/-- A parsed chat message: a `role` string and a list of content items
(kept as raw JavaScript values, as in the source). -/
structure ChatMessage where
  role : String
  content : List JsValue

/-- Embeds `traversePath`, `src/unnamed/part_015` lines 347-357: follows
`path` through the input, stepping only while the current value is truthy,
of `typeof` `"object"`, and owns the key; otherwise yields `undefined`. -/
def traversePath (input : JsValue) : List String → Option JsValue
  | [] => some input
  | key :: rest =>
    if jsTruthy input && (jsTypeof input = "object" : Bool) then
      match jsGet input key with
      | some v => traversePath v rest
      | none => none
    else none

/-- `Array.isArray(target) ? target : [target]`. -/
def wrapMessages : JsValue → List JsValue
  | .arr elems => elems
  | v => [v]

/-- Embeds the content-item validation loop of `parseChatMessages`
(lines 451-471): each item must be a non-null object with a string
`type`; the first offender produces the error. -/
def checkContentItems (i : Nat) : Nat → List JsValue → Option AppError
  | _, [] => none
  | j, item :: rest =>
    if !jsIsObjectNonNull item then
      some (.InvalidChatMessages
        ("Content at index " ++ toString j ++ " in message " ++ toString i ++
          " is not a valid object."))
    else
      match jsGet item "type" with
      | some (.str _) => checkContentItems i (j + 1) rest
      | _ =>
        some (.InvalidChatMessages
          ("Content at index " ++ toString j ++ " in message " ++ toString i ++
            " is missing a valid \x27type\x27 property."))

/-- Embeds the per-message validation of `parseChatMessages`
(lines 403-487): the message must be a non-null object with a string
`role` and a `content` that is either a string (wrapped into a single
text item) or an array of valid content items.  The `"content" in msg`
check and the switch on `msg.content` coincide here because the model
has no stored `undefined`. -/
def parseMessageAt (i : Nat) (msg : JsValue) : Result ChatMessage :=
  if !jsIsObjectNonNull msg then
    .err (.InvalidChatMessages
      ("Message at index " ++ toString i ++ " is not a valid object."))
  else
    match jsGet msg "role" with
    | some (.str role) =>
      match jsGet msg "content" with
      | none =>
        .err (.InvalidChatMessages
          ("Message at index " ++ toString i ++ " is missing the \x27content\x27 property."))
      | some (.str s) =>
        .ok ⟨role, [.obj [("type", .str "text"), ("text", .str s)]]⟩
      | some (.arr items) =>
        match checkContentItems i 0 items with
        | some e => .err e
        | none => .ok ⟨role, items⟩
      | some _ =>
        .err (.InvalidChatMessages
          ("Message at index " ++ toString i ++ " has an invalid \x27content\x27 type."))
    | _ =>
      .err (.InvalidChatMessages
        ("Message at index " ++ toString i ++ " is missing a valid \x27role\x27 property."))

/-- The indexed validation loop over all messages (lines 400-488). -/
def parseMessagesLoop : Nat → List JsValue → Result (List ChatMessage)
  | _, [] => .ok []
  | i, msg :: rest =>
    match parseMessageAt i msg with
    | .err e => .err e
    | .ok m =>
      match parseMessagesLoop (i + 1) rest with
      | .err e => .err e
      | .ok ms => .ok (m :: ms)

/-- The body of `parseChatMessages` once the target value is resolved
(lines 387-491): wrap a non-array into a one-element list, reject an
empty list, then validate every message. -/
def parseMessagesTarget (t : JsValue) : Result (List ChatMessage) :=
  let l := wrapMessages t
  if l.isEmpty then
    .err (.InvalidChatMessages "Input does not contain any chat messages.")
  else parseMessagesLoop 0 l

/-- Embeds `parseChatMessages`, `src/unnamed/part_015` lines 370-492. -/
def parseChatMessages (input : JsValue) (path : Option (List String)) :
    Result (List ChatMessage) :=
  match path with
  | none => parseMessagesTarget input
  | some p =>
    if p.isEmpty then parseMessagesTarget input
    else
      match traversePath input p with
      | none =>
        .err (.InvalidChatMessages
          ("Could not resolve path " ++ String.intercalate " -> " p ++
            " on the input object."))
      | some t => parseMessagesTarget t

/-! Spec-side predicates for claim C9, written from the words of the claim:
a content item must be an object carrying a string `type`; a message must
have a string `role` and a content that is a string or an array of such
items; the whole parse succeeds iff the target exists and wraps to a
non-empty list of valid messages, normalized as described. -/

def specContentItemOk (item : JsValue) : Bool :=
  jsIsObjectNonNull item &&
    (match jsGet item "type" with
     | some (.str _) => true
     | _ => false)

def specMessageOk (msg : JsValue) : Bool :=
  (match jsGet msg "role" with
   | some (.str _) => true
   | _ => false) &&
  (match jsGet msg "content" with
   | some (.str _) => true
   | some (.arr items) => items.all specContentItemOk
   | _ => false)

def specTargetOk (t : JsValue) : Bool :=
  !(wrapMessages t).isEmpty && (wrapMessages t).all specMessageOk

/-- The normalized form of one message, per the claim: its role and its
content, with a plain string content wrapped as a single text item. -/
def specNormalizeMsg (msg : JsValue) : ChatMessage :=
  ⟨(match jsGet msg "role" with
    | some (.str r) => r
    | _ => ""),
   (match jsGet msg "content" with
    | some (.str s) => [.obj [("type", .str "text"), ("text", .str s)]]
    | some (.arr items) => items
    | _ => [])⟩

/-- The normalized form the claim describes: the wrapped message list,
each message normalized. -/
def specNormalize (t : JsValue) : List ChatMessage :=
  (wrapMessages t).map specNormalizeMsg

/-- The target value `parseChatMessages` resolves for a given path (the
claim speaks of "the value at the given path"). -/
def resolvedTarget (input : JsValue) (path : Option (List String)) : Option JsValue :=
  match path with
  | none => some input
  | some p => if p.isEmpty then some input else traversePath input p

/-! ## Google-font CSS fetching (`fetchGoogleFontCSS`)

Embedded from `src/fonts.ts` lines 158-212.  `Bun.fetch` of a URL is
modelled by the oracle `fetch : String → FontFetchOutcome`; the embedding
additionally returns the list of URLs fetched, in order, so that claims
about attempt counts can be stated. -/

inductive FontError where
  | InvalidFontName
  | InvalidParameters
  | RequestFailed
  | FallbackFailed

inductive FontResult (α : Type) where
  | ok (value : α)
  | err (error : FontError)

inductive FontFetchOutcome where
  | threw
  | resp (ok : Bool) (body : String)

structure FontWorld where
  fetch : String → FontFetchOutcome

/-- `!css || !css.includes("font-family")`: the body is empty or lacks the
substring `font-family`. -/
def cssLooksInvalid (css : String) : Bool :=
  (css = "" : Bool) || !decide ("font-family".data <:+: css.data)

/-- Embeds `fetchFallbackCSS`, `src/fonts.ts` lines 190-212: one fetch of
the fallback URL; a thrown fetch, a non-OK response, or an invalid body
all yield `FallbackFailed`. -/
def fetchFallbackCSS (w : FontWorld) (fallbackUrl : String) :
    FontResult String × List String :=
  match w.fetch fallbackUrl with
  | .threw => (.err .FallbackFailed, [fallbackUrl])
  | .resp ok body =>
    if !ok then (.err .FallbackFailed, [fallbackUrl])
    else if cssLooksInvalid body then (.err .FallbackFailed, [fallbackUrl])
    else (.ok body, [fallbackUrl])

/-- Embeds `fetchGoogleFontCSS`, `src/fonts.ts` lines 158-188: one fetch
of the primary URL; on a thrown fetch, a non-OK response, or an invalid
body it falls through to `fetchFallbackCSS`, otherwise it succeeds with
the primary body. -/
def fetchGoogleFontCSS (w : FontWorld) (primaryUrl fallbackUrl : String) :
    FontResult String × List String :=
  match w.fetch primaryUrl with
  | .threw =>
    let r := fetchFallbackCSS w fallbackUrl
    (r.1, primaryUrl :: r.2)
  | .resp ok body =>
    if !ok then
      let r := fetchFallbackCSS w fallbackUrl
      (r.1, primaryUrl :: r.2)
    else if cssLooksInvalid body then
      let r := fetchFallbackCSS w fallbackUrl
      (r.1, primaryUrl :: r.2)
    else (.ok body, [primaryUrl])

/-- Spec-side: the primary attempt "fails" in the sense of the claim (fetch
throws, non-OK status, or a body lacking `font-family`). -/
def primaryAttemptFails (w : FontWorld) (url : String) : Bool :=
  match w.fetch url with
  | .threw => true
  | .resp ok body => !ok || cssLooksInvalid body

/-! ## Image routines (`src/images.ts`)

`sharp` is modelled at the metadata level: a buffer is characterized by
the `width`/`height` its metadata reports (`none` when the metadata lacks
the field). -/

structure ImageMetadata where
  width : Option Nat
  height : Option Nat

/-- The outcome of `downsample`: the original buffer returned unchanged,
or a buffer resized to the given dimensions. -/
inductive DownsampleOut where
  | original
  | resized (w h : Int)

/-- `!metadata.width` for `width : number | undefined`: missing or zero
(zero is falsy in JavaScript). -/
def dimFalsy : Option Nat → Bool
  | none => true
  | some n => n = 0

/-- Embeds `downsample`, `src/images.ts` lines 163-197 (the `catch` arm
for `sharp` exceptions is outside this metadata-level model).  Dimensions
at most `maxDimension` leave the buffer unchanged; otherwise both are
scaled by `min(maxDimension/w, maxDimension/h)` and rounded
(`Math.round(x) = ⌊x + 1/2⌋` agrees with Lean `round` on rationals). -/
def downsample (meta : ImageMetadata) (maxDimension : Nat) : Result DownsampleOut :=
  if dimFalsy meta.width || dimFalsy meta.height then
    .err (.MissingMetadata "(width/height)")
  else
    let w := meta.width.getD 0
    let h := meta.height.getD 0
    if w ≤ maxDimension ∧ h ≤ maxDimension then .ok .original
    else
      let scale : ℚ := min ((maxDimension : ℚ) / w) ((maxDimension : ℚ) / h)
      .ok (.resized (round ((w : ℚ) * scale)) (round ((h : ℚ) * scale)))

/-- The canvas and composite instructions `stitchHorizontally` produces:
canvas dimensions and, per input image, the `left`/`top` offsets. -/
structure StitchPlan where
  width : Nat
  height : Nat
  placements : List (Nat × Nat)

/-- The composite-instruction loop of `stitchHorizontally` (lines
221-231): image `i` is placed at the running sum of widths, vertically
centered against `maxHeight`. -/
def stitchPlacements (maxHeight : Nat) : Nat → List (Nat × Nat) → List (Nat × Nat)
  | _, [] => []
  | left, (w, h) :: rest => (left, (maxHeight - h) / 2) :: stitchPlacements maxHeight (left + w) rest

/-- Embeds `stitchHorizontally`, `src/images.ts` lines 199-238, at the
metadata level: an empty buffer list is a `StitchingError`; otherwise the
canvas is `sum of (width || 0)` by `Math.max` of `(height || 0)` (the
`Nat` fold with base 0 agrees with `Math.max` since all heights are
nonnegative), and the placements follow the composite loop. -/
def stitchHorizontally (metas : List ImageMetadata) : Result StitchPlan :=
  if metas.isEmpty then .err (.StitchingError "No buffers to stitch.")
  else
    let ws := metas.map fun m => m.width.getD 0
    let hs := metas.map fun m => m.height.getD 0
    let totalWidth := ws.sum
    let maxHeight := hs.foldr max 0
    .ok ⟨totalWidth, maxHeight, stitchPlacements maxHeight 0 (ws.zip hs)⟩

/-! ### Bing image scraping (`scrapeBingImages`)

Embedded from `src/images.ts` lines 109-152.  The fetch of the results
page either throws (the outer `catch` returns `[]`) or yields a document
whose `a.iusc` anchors each carry an optional `m` attribute;
`JSON.parse` is again an oracle. -/

inductive BingOutcome where
  | threw
  | page (anchors : List (Option String))

/-- The per-anchor extraction: an anchor contributes `mData.murl` when it
has an `m` attribute that parses as JSON whose `murl` is truthy; any
failure skips the anchor. -/
def extractMurl (parseJson : String → Option JsValue) : Option String → Option JsValue
  | none => none
  | some m =>
    match parseJson m with
    | none => none
    | some mData =>
      match jsGet mData "murl" with
      | some murl => if jsTruthy murl then some murl else none
      | none => none

/-- Embeds `scrapeBingImages`, `src/images.ts` lines 109-152: on any
thrown failure the result is `[]`; otherwise the extracted URLs are
returned, truncated to the top `numResults`. -/
def scrapeBingImages (parseJson : String → Option JsValue) (outcome : BingOutcome)
    (numResults : Nat := 10) : List JsValue :=
  match outcome with
  | .threw => []
  | .page anchors => (anchors.filterMap (extractMurl parseJson)).take numResults

/-! ## JSON serialization (for error details built with `JSON.stringify`) -/

/-- Escape of a string for JSON output (quote and backslash; the control
characters never occur in the embedded strings). -/
def jsonEscape (s : String) : String :=
  s.data.foldr
    (fun c acc =>
      (if c = '"' then "\\\"" else if c = '\\' then "\\\\" else String.singleton c) ++ acc)
    ""

mutual

/-- `JSON.stringify` on the value model. -/
def jsonStringify : JsValue → String
  | .str s => "\"" ++ jsonEscape s ++ "\""
  | .num n => toString n
  | .bool b => if b then "true" else "false"
  | .null => "null"
  | .arr elems => "[" ++ String.intercalate "," (jsonStringifyList elems) ++ "]"
  | .obj fields => "\x7b" ++ String.intercalate "," (jsonStringifyFields fields) ++ "\x7d"

def jsonStringifyList : List JsValue → List String
  | [] => []
  | v :: rest => jsonStringify v :: jsonStringifyList rest

def jsonStringifyFields : List (String × JsValue) → List String
  | [] => []
  | (k, v) :: rest =>
    ("\"" ++ jsonEscape k ++ "\":" ++ jsonStringify v) :: jsonStringifyFields rest

end

/-- The JavaScript object an `AppError` is at runtime (the tagged unions
of `utils.ts`). -/
def AppError.toJs : AppError → JsValue
  | .MissingApiKey => .obj [("type", .str "MissingApiKey")]
  | .HttpError status statusText detail =>
    .obj [("type", .str "HttpError"), ("status", .num status),
          ("statusText", .str statusText), ("detail", detail)]
  | .FetchError d => .obj [("type", .str "FetchError"), ("detail", .str d)]
  | .NoResponseContent => .obj [("type", .str "NoResponseContent")]
  | .InvalidResponseJson => .obj [("type", .str "InvalidResponseJson")]
  | .PaletteError d => .obj [("type", .str "PaletteError"), ("detail", .str d)]
  | .InvalidImageUrl d => .obj [("type", .str "InvalidImageUrl"), ("detail", .str d)]
  | .InvalidChatMessages d => .obj [("type", .str "InvalidChatMessages"), ("detail", .str d)]
  | .MissingMetadata d => .obj [("type", .str "MissingMetadata"), ("detail", .str d)]
  | .DownsampleError d => .obj [("type", .str "DownsampleError"), ("detail", .str d)]
  | .StitchingError d => .obj [("type", .str "StitchingError"), ("detail", .str d)]
  | .InvalidFontName => .obj [("type", .str "InvalidFontName")]
  | .InvalidParameters => .obj [("type", .str "InvalidParameters")]
  | .RequestFailed => .obj [("type", .str "RequestFailed")]
  | .FallbackFailed => .obj [("type", .str "FallbackFailed")]

/-- A `Result<T>` value (over JavaScript values) as the JavaScript object
it is at runtime. -/
def Result.toJs : Result JsValue → JsValue
  | .ok v => .obj [("ok", .bool true), ("value", v)]
  | .err e => .obj [("ok", .bool false), ("error", AppError.toJs e)]

/-! ## Color pipeline (`colorPipeline`)

Embedded from `src/images.ts` lines 240-309.  The externally visible
actions are recorded in a trace: a Bing results-page scrape per text
entry, one image download per collected URL, the stitch of the collage
and the palette chat request.  `sendPaletteRequest` (lines 60-104) is a
single LLM call whose outcome the world supplies. -/

/-- `ChatMessageContent`, from `src/unnamed/part_015` (`chat.ts`) lines
282-285: a text item, or an image item whose `image_url` is either a
plain string or an object with a `url`. -/
inductive ChatMessageContent where
  | text (text : String)
  | imageUrlStr (image_url : String)
  | imageUrlObj (url : String) (detail : String)

inductive ColorAction where
  | scrape (term : String)
  | fetchImage (url : JsValue)
  | stitch
  | palette

structure ColorWorld where
  bing : String → BingOutcome
  parseJson : String → Option JsValue
  fetchImage : JsValue → Option ImageMetadata
  stitchedBase64 : String
  paletteResult : Result JsValue

/-- Outcome of the collection loop of `colorPipeline` (lines 251-268). -/
inductive ColorLoopOut where
  | done (imageUrls : List JsValue) (base64Images : List String) (trace : List ColorAction)
  | failed (e : AppError) (trace : List ColorAction)

/-- Embeds the `for (const content of contents)` loop of `colorPipeline`:
a text entry scrapes Bing for 4 URLs and concatenates them; an image
entry must be a `data:image/` URL, else the loop returns the
`InvalidImageUrl` error immediately. -/
def colorCollect (w : ColorWorld) : List ChatMessageContent → ColorLoopOut
  | [] => .done [] [] []
  | .text s :: rest =>
    let urls := scrapeBingImages w.parseJson (w.bing s) 4
    match colorCollect w rest with
    | .done us bs tr => .done (urls ++ us) bs (.scrape s :: tr)
    | .failed e tr => .failed e (.scrape s :: tr)
  | .imageUrlStr u :: rest =>
    if u.startsWith "data:image/" then
      match colorCollect w rest with
      | .done us bs tr => .done us (u :: bs) tr
      | .failed e tr => .failed e tr
    else .failed (.InvalidImageUrl "Expected base64 image URL") []
  | .imageUrlObj u _ :: rest =>
    if u.startsWith "data:image/" then
      match colorCollect w rest with
      | .done us bs tr => .done us (u :: bs) tr
      | .failed e tr => .failed e tr
    else .failed (.InvalidImageUrl "Expected base64 image URL") []

/-- A downloaded buffer after `downsample(b, 300)`: the original metadata
when unchanged, the new dimensions when resized. -/
def downsampledMeta (m : ImageMetadata) : Result ImageMetadata :=
  match downsample m 300 with
  | .err e => .err e
  | .ok .original => .ok m
  | .ok (.resized w h) => .ok ⟨some w.toNat, some h.toNat⟩

/-- The fulfilled, successfully downsampled buffers (lines 270-284):
`Promise.allSettled` keeps the fulfilled downloads, then the `ok`
downsample results are kept. -/
def colorBuffers (w : ColorWorld) (urls : List JsValue) : List ImageMetadata :=
  urls.filterMap fun u =>
    match w.fetchImage u with
    | none => none
    | some meta =>
      match downsampledMeta meta with
      | .err _ => none
      | .ok m => some m

/-- Embeds `colorPipeline`, `src/images.ts` lines 247-309, paired with
the trace of external actions it performs. -/
def colorPipeline (w : ColorWorld) (contents : List ChatMessageContent) :
    Result JsValue × List ColorAction :=
  match colorCollect w contents with
  | .failed e tr => (.err e, tr)
  | .done imageUrls base64Images tr =>
    let fetchActs := imageUrls.map ColorAction.fetchImage
    match stitchHorizontally (colorBuffers w imageUrls) with
    | .err e => (.err e, tr ++ fetchActs ++ [.stitch])
    | .ok _ =>
      let stitchedImage := "data:image/png;base64," ++ w.stitchedBase64
      match w.paletteResult with
      | .err e =>
        (.err (.PaletteError (jsonStringify (AppError.toJs e))),
         tr ++ fetchActs ++ [.stitch, .palette])
      | .ok v =>
        (.ok (.obj (jsSpreadInto
            [("imageUrls", .arr imageUrls),
             ("base64Images", .arr (base64Images.map .str)),
             ("stitchedImage", .str stitchedImage)] (some v))),
         tr ++ fetchActs ++ [.stitch, .palette])

/-- Spec-side: an entry that does not trip the `InvalidImageUrl` return
(text entries, and image entries whose URL starts with `data:image/`). -/
def validColorEntry : ChatMessageContent → Bool
  | .text _ => true
  | .imageUrlStr u => u.startsWith "data:image/"
  | .imageUrlObj u _ => u.startsWith "data:image/"

/-- The Bing scrape action a content entry performs, if any. -/
def scrapeActionOf : ChatMessageContent → Option ColorAction
  | .text s => some (.scrape s)
  | _ => none

/-! ## The POST /api/chat handler (`src/index.ts` lines 48-114)

Two aspects are embedded separately: the response value constructed from
the four pipeline results (lines 79-108), over JavaScript runtime values;
and the control skeleton of the handler (await the preprocess pipeline,
`Promise.all` over the four pipelines, respond), as a small async
program with an interleaving trace semantics. -/

def errorResponse (content : String) : JsValue :=
  .obj [("type", .str "error"), ("content", .str content)]

/-- Embeds the response construction of the handler, `src/index.ts` lines
79-108, on the four pipeline results as JavaScript runtime values.
`imageResult`, `fontResult` and `layoutResult` are the `Result` objects
the pipelines resolve to, `textResult` the resolved text.  Notes kept
from the source: `!fontResult` and `!layoutResult` test object
truthiness; the merge spreads `imageResult.value.ui_changes`, then
`fontResult.ui_changes` (a property of the `Result` wrapper itself, not
of its `value`), then `layoutResult` (the whole `Result` object); the
`css` key takes `fontResult.css` and is dropped from the serialized JSON
when that is `undefined`. -/
def chatRespond (imageResult fontResult layoutResult textResult : JsValue) : JsValue :=
  if !jsTruthyO (jsGet imageResult "ok") then
    errorResponse ("Oops! Image processing failed: " ++
      jsToStringO (jsGet imageResult "error") ++
      ". If only LLMs could code, they\x27d fix it for us!")
  else if !jsTruthy fontResult then
    errorResponse "Oops! Font processing failed. If only LLMs could code, they\x27d fix it for us!"
  else if !jsTruthy layoutResult then
    errorResponse "Oops! Layout processing failed. If only LLMs could code, they\x27d fix it for us!"
  else
    let imageUi :=
      match jsGet imageResult "value" with
      | some v => jsGet v "ui_changes"
      | none => none
    let uiChanges :=
      jsSpreadInto (jsSpreadInto (jsSpreadInto [] imageUi) (jsGet fontResult "ui_changes"))
        (some layoutResult)
    .obj ([("type", .str "ui_update"), ("content", textResult),
           ("ui_changes", .obj uiChanges)] ++
      (match jsGet fontResult "css" with
       | some v => [("css", v)]
       | none => []))

/-- Lookup in the `ui_changes` object of a handler response. -/
def responsePieceUi (response : JsValue) (key : String) : Option JsValue :=
  match jsGet response "ui_changes" with
  | some ui => jsGet ui key
  | none => none

/-! ### Control skeleton and trace semantics -/

inductive PipeId where
  | color
  | font
  | layout
  | text

inductive HandlerEv where
  | preprocessStart
  | preprocessEnd
  | pipeStart (p : PipeId)
  | pipeEnd (p : PipeId)
  | respond

/-- A tiny async-program language: atomic events, sequencing (`await`),
and concurrent composition (`Promise.all`, whose continuation runs only
after both branches completed). -/
inductive AsyncProg where
  | act (e : HandlerEv)
  | seq (a b : AsyncProg)
  | par (a b : AsyncProg)

/-- All interleavings of two event sequences (the shuffle product). -/
inductive Shuffle : List HandlerEv → List HandlerEv → List HandlerEv → Prop where
  | nil : Shuffle [] [] []
  | left (x : HandlerEv) {xs ys zs : List HandlerEv} :
      Shuffle xs ys zs → Shuffle (x :: xs) ys (x :: zs)
  | right (y : HandlerEv) {xs ys zs : List HandlerEv} :
      Shuffle xs ys zs → Shuffle xs (y :: ys) (y :: zs)

/-- Trace semantics: `seq` concatenates, `par` interleaves, and the event
after a `par` (via the enclosing `seq`) appears only after every event of
both branches — the join of `Promise.all`. -/
inductive HasTrace : AsyncProg → List HandlerEv → Prop where
  | act (e : HandlerEv) : HasTrace (.act e) [e]
  | seq {a b : AsyncProg} {t₁ t₂ : List HandlerEv} :
      HasTrace a t₁ → HasTrace b t₂ → HasTrace (.seq a b) (t₁ ++ t₂)
  | par {a b : AsyncProg} {t₁ t₂ t : List HandlerEv} :
      HasTrace a t₁ → HasTrace b t₂ → Shuffle t₁ t₂ t → HasTrace (.par a b) t

/-- One asynchronous pipeline as a task: it starts, runs, and finishes. -/
def pipelineTask (p : PipeId) : AsyncProg :=
  .seq (.act (.pipeStart p)) (.act (.pipeEnd p))

/-- The control skeleton of the POST /api/chat handler, `src/index.ts`
lines 71-108: `await preprocessPipeline(latest)` runs to completion
first; then `Promise.all([colorPipeline, fontPipeline, layoutPipeline,
textPipeline])` runs the four pipelines concurrently; the response is
produced after the join.  (If the preprocess pipeline or a pipeline
promise rejects, the handler throws and produces no response; such traces
contain no `respond` event and are not modelled.) -/
def chatHandlerAsync : AsyncProg :=
  .seq (.seq (.act .preprocessStart) (.act .preprocessEnd))
    (.seq (.par (.par (pipelineTask .color) (pipelineTask .font))
                (.par (pipelineTask .layout) (pipelineTask .text)))
      (.act .respond))

/-! ## Concrete values used by counterexamples and witnesses -/

/-- A color-pipeline success whose `ui_changes` binds `--accent` to red. -/
def imageResultAccentRed : JsValue :=
  Result.toJs (.ok (.obj [("ui_changes", .obj [("--accent", .str "red")])]))

/-- A font-pipeline success whose `ui_changes` binds `--accent` to blue. -/
def fontResultAccentBlue : JsValue :=
  Result.toJs (.ok (.obj [("css", .str "@font-face"),
                          ("ui_changes", .obj [("--accent", .str "blue")])]))

/-- A layout-pipeline success whose `ui_changes` binds `--bubble`. -/
def layoutResultBubble : JsValue :=
  Result.toJs (.ok (.obj [("ui_changes", .obj [("--bubble", .str "8px")])]))

/-- A failed color-pipeline `Result`. -/
def imageResultFailed : JsValue :=
  Result.toJs (.err (.PaletteError "boom"))

/-- A font-CDN world in which every fetch throws. -/
def fontWorldAllDown : FontWorld := ⟨fun _ => .threw⟩

/-- A color-pipeline world whose Bing results pages are empty and whose
palette request fails. -/
def colorWorldEmpty : ColorWorld :=
  ⟨fun _ => .page [], fun _ => none, fun _ => none, "", .err .RequestFailed⟩

/-- A simple chat request body: one user message with string content. -/
def chatInputSimple : JsValue :=
  .obj [("messages", .arr [.obj [("role", .str "user"), ("content", .str "hi")]])]

/-- A chat-client world with no API key configured. -/
def chatWorldNoKey : ChatWorld :=
  ⟨none, .threw "unreached", fun _ => none, fun _ => "syntax error"⟩

/-- A chat-client world whose completion succeeds with a content of
`"null"` (which parses to JSON `null`). -/
def chatWorldOk : ChatWorld :=
  ⟨some "sk-key",
   .resp true 200 "OK" "ENVELOPE",
   fun s =>
     if s = "ENVELOPE" then
       some (.obj [("choices",
         .arr [.obj [("message", .obj [("content", .str "null")])]])])
     else if s = "null" then some .null
     else none,
   fun _ => "syntax error"⟩

/-- Spec-side placements for `stitchHorizontally`, written from the
claim: image `i` sits at left offset `sum of widths of images 0..i-1` and
top `floor((maxHeight - height_i) / 2)`. -/
def specStitchPlacements (metas : List ImageMetadata) : List (Nat × Nat) :=
  let maxH := (metas.map fun m => m.height.getD 0).foldr max 0
  (List.range metas.length).map fun i =>
    (((metas.take i).map fun m => m.width.getD 0).sum,
     (maxH - ((metas.get? i).map fun m => m.height.getD 0).getD 0) / 2)

/-! # Theorems -/

/-! ## C1: orchestration order of the handler -/

theorem Shuffle.sublist_left {xs ys zs : List HandlerEv} (h : Shuffle xs ys zs) :
    xs.Sublist zs := by
  induction h with
  | nil => exact List.Sublist.refl []
  | left x _ ih => exact ih.cons₂ x
  | right y _ ih => exact ih.cons y

theorem Shuffle.sublist_right {xs ys zs : List HandlerEv} (h : Shuffle xs ys zs) :
    ys.Sublist zs := by
  induction h with
  | nil => exact List.Sublist.refl []
  | left x _ ih => exact ih.cons x
  | right y _ ih => exact ih.cons₂ y

theorem pipelineTask_trace {p : PipeId} {tp : List HandlerEv}
    (h : HasTrace (pipelineTask p) tp) : tp = [.pipeStart p, .pipeEnd p] := by
  cases h with
  | seq h₁ h₂ => cases h₁; cases h₂; rfl

theorem handler_order_helper {w : List HandlerEv} {p : PipeId}
    (hw : List.Sublist [.pipeStart p, .pipeEnd p] w) :
    List.Sublist [HandlerEv.preprocessEnd, HandlerEv.pipeStart p]
      (.preprocessStart :: .preprocessEnd :: (w ++ [.respond])) ∧
    List.Sublist [HandlerEv.pipeEnd p, HandlerEv.respond]
      (.preprocessStart :: .preprocessEnd :: (w ++ [.respond])) ∧
    List.Sublist [HandlerEv.pipeStart p, HandlerEv.pipeEnd p]
      (.preprocessStart :: .preprocessEnd :: (w ++ [.respond])) := by
  have hstart : List.Sublist [HandlerEv.pipeStart p] w :=
    (((List.nil_sublist [HandlerEv.pipeEnd p]).cons₂ (HandlerEv.pipeStart p)).trans hw)
  have hend : List.Sublist [HandlerEv.pipeEnd p] w :=
    (((List.Sublist.refl [HandlerEv.pipeEnd p]).cons (HandlerEv.pipeStart p)).trans hw)
  refine ⟨?_, ?_, ?_⟩
  · exact ((hstart.trans (List.sublist_append_left w [.respond])).cons₂ _).cons _
  · exact ((hend.append (List.Sublist.refl [HandlerEv.respond])).cons _).cons _
  · exact ((hw.trans (List.sublist_append_left w [.respond])).cons _).cons _

/-- C1: in every trace of the POST /api/chat handler, the
keyword-extraction preprocess step completes before any of the four
pipelines (color, font, layout, text) starts; all four pipelines start
and each one finishes before the response is produced.  (`[a, b] <+ t`
states that `a` occurs before `b` in the trace `t`.) -/
theorem chatHandler_runs_preprocess_then_pipelines_then_responds :
    ∀ t : List HandlerEv, HasTrace chatHandlerAsync t →
      (∀ p, List.Sublist [HandlerEv.preprocessEnd, HandlerEv.pipeStart p] t) ∧
      (∀ p, List.Sublist [HandlerEv.pipeEnd p, HandlerEv.respond] t) ∧
      (∀ p, List.Sublist [HandlerEv.pipeStart p, HandlerEv.pipeEnd p] t) := by
  intro t ht
  cases ht with
  | seq hpre hrest =>
    cases hpre with
    | seq ha hb =>
      cases ha
      cases hb
      cases hrest with
      | seq hpar hresp =>
        cases hresp
        cases hpar with
        | par hcf hlt hsh =>
          cases hcf with
          | par hc hf hsh₁ =>
            cases hlt with
            | par hl ht₂ hsh₂ =>
              rw [pipelineTask_trace hc] at hsh₁
              rw [pipelineTask_trace hf] at hsh₁
              rw [pipelineTask_trace hl] at hsh₂
              rw [pipelineTask_trace ht₂] at hsh₂
              have hColor := (hsh₁.sublist_left.trans hsh.sublist_left)
              have hFont := (hsh₁.sublist_right.trans hsh.sublist_left)
              have hLayout := (hsh₂.sublist_left.trans hsh.sublist_right)
              have hText := (hsh₂.sublist_right.trans hsh.sublist_right)
              refine ⟨?_, ?_, ?_⟩ <;> intro p <;> cases p
              · exact (handler_order_helper hColor).1
              · exact (handler_order_helper hFont).1
              · exact (handler_order_helper hLayout).1
              · exact (handler_order_helper hText).1
              · exact (handler_order_helper hColor).2.1
              · exact (handler_order_helper hFont).2.1
              · exact (handler_order_helper hLayout).2.1
              · exact (handler_order_helper hText).2.1
              · exact (handler_order_helper hColor).2.2
              · exact (handler_order_helper hFont).2.2
              · exact (handler_order_helper hLayout).2.2
              · exact (handler_order_helper hText).2.2

/-- A concrete trace of the handler: the four pipelines happen to run in
sequence between the preprocess step and the response. -/
def chatHandlerSequentialTrace : List HandlerEv :=
  [.preprocessStart, .preprocessEnd,
   .pipeStart .color, .pipeEnd .color,
   .pipeStart .font, .pipeEnd .font,
   .pipeStart .layout, .pipeEnd .layout,
   .pipeStart .text, .pipeEnd .text,
   .respond]

theorem chatHandlerSequentialTrace_hasTrace :
    HasTrace chatHandlerAsync chatHandlerSequentialTrace := by
  have hc : HasTrace (pipelineTask .color)
      [HandlerEv.pipeStart .color, HandlerEv.pipeEnd .color] :=
    HasTrace.seq (HasTrace.act _) (HasTrace.act _)
  have hf : HasTrace (pipelineTask .font)
      [HandlerEv.pipeStart .font, HandlerEv.pipeEnd .font] :=
    HasTrace.seq (HasTrace.act _) (HasTrace.act _)
  have hl : HasTrace (pipelineTask .layout)
      [HandlerEv.pipeStart .layout, HandlerEv.pipeEnd .layout] :=
    HasTrace.seq (HasTrace.act _) (HasTrace.act _)
  have htx : HasTrace (pipelineTask .text)
      [HandlerEv.pipeStart .text, HandlerEv.pipeEnd .text] :=
    HasTrace.seq (HasTrace.act _) (HasTrace.act _)
  have h4cf : Shuffle [HandlerEv.pipeStart .color, HandlerEv.pipeEnd .color]
      [HandlerEv.pipeStart .font, HandlerEv.pipeEnd .font]
      [HandlerEv.pipeStart .color, HandlerEv.pipeEnd .color,
       HandlerEv.pipeStart .font, HandlerEv.pipeEnd .font] :=
    Shuffle.left _ (Shuffle.left _ (Shuffle.right _ (Shuffle.right _ Shuffle.nil)))
  have h4lt : Shuffle [HandlerEv.pipeStart .layout, HandlerEv.pipeEnd .layout]
      [HandlerEv.pipeStart .text, HandlerEv.pipeEnd .text]
      [HandlerEv.pipeStart .layout, HandlerEv.pipeEnd .layout,
       HandlerEv.pipeStart .text, HandlerEv.pipeEnd .text] :=
    Shuffle.left _ (Shuffle.left _ (Shuffle.right _ (Shuffle.right _ Shuffle.nil)))
  have h8 : Shuffle
      [HandlerEv.pipeStart .color, HandlerEv.pipeEnd .color,
       HandlerEv.pipeStart .font, HandlerEv.pipeEnd .font]
      [HandlerEv.pipeStart .layout, HandlerEv.pipeEnd .layout,
       HandlerEv.pipeStart .text, HandlerEv.pipeEnd .text]
      [HandlerEv.pipeStart .color, HandlerEv.pipeEnd .color,
       HandlerEv.pipeStart .font, HandlerEv.pipeEnd .font,
       HandlerEv.pipeStart .layout, HandlerEv.pipeEnd .layout,
       HandlerEv.pipeStart .text, HandlerEv.pipeEnd .text] :=
    Shuffle.left _ (Shuffle.left _ (Shuffle.left _ (Shuffle.left _
      (Shuffle.right _ (Shuffle.right _ (Shuffle.right _ (Shuffle.right _ Shuffle.nil)))))))
  exact HasTrace.seq
    (HasTrace.seq (HasTrace.act HandlerEv.preprocessStart) (HasTrace.act HandlerEv.preprocessEnd))
    (HasTrace.seq (HasTrace.par (HasTrace.par hc hf h4cf) (HasTrace.par hl htx h4lt) h8)
      (HasTrace.act HandlerEv.respond))

/-- Witness for C1 at the concrete sequential trace. -/
theorem chatHandler_runs_preprocess_then_pipelines_then_responds_witness :
    List.Sublist [HandlerEv.preprocessEnd, HandlerEv.pipeStart .color]
      chatHandlerSequentialTrace ∧
    List.Sublist [HandlerEv.pipeEnd .text, HandlerEv.respond]
      chatHandlerSequentialTrace :=
  ⟨(chatHandler_runs_preprocess_then_pipelines_then_responds
      chatHandlerSequentialTrace chatHandlerSequentialTrace_hasTrace).1 .color,
   (chatHandler_runs_preprocess_then_pipelines_then_responds
      chatHandlerSequentialTrace chatHandlerSequentialTrace_hasTrace).2.1 .text⟩

/-! ## C2: partial pipeline failure and the shape of the response -/

/-- Counterexample to C2 as stated: when the color pipeline fails while
the font, layout and text pipelines all succeed, the handler does not
merge the successful partial results — the whole response is replaced by
an error response carrying no `ui_changes` at all. -/
theorem chatRespond_color_failure_replaces_response :
    jsGet (chatRespond imageResultFailed fontResultAccentBlue layoutResultBubble
      (.str "hello")) "type" = some (.str "error") ∧
    jsGet (chatRespond imageResultFailed fontResultAccentBlue layoutResultBubble
      (.str "hello")) "ui_changes" = none := ⟨rfl, rfl⟩

/-- C2 amended: only a color-pipeline failure replaces the whole response
with an error.  A failed font pipeline is tolerated silently: its
`Result` object is truthy, so the `!fontResult` guard never fires, the
handler still answers with a `ui_update` response, and the failed font
pipeline simply contributes nothing (in particular no `css` key is
serialized). -/
theorem chatRespond_font_failure_tolerated_color_failure_not :
    (∀ (imageResult layoutResult textResult : JsValue) (e : AppError),
      jsTruthyO (jsGet imageResult "ok") = true →
      jsTruthy layoutResult = true →
      jsGet (chatRespond imageResult (Result.toJs (.err e)) layoutResult textResult) "type"
          = some (.str "ui_update") ∧
        jsGet (chatRespond imageResult (Result.toJs (.err e)) layoutResult textResult) "css"
          = none) ∧
    (∀ imageResult fontResult layoutResult textResult : JsValue,
      jsTruthyO (jsGet imageResult "ok") = false →
      jsGet (chatRespond imageResult fontResult layoutResult textResult) "type"
        = some (.str "error")) := by
  constructor
  · intro imageResult layoutResult textResult e hok hlayout
    unfold chatRespond
    rw [hok, hlayout]
    simp [Result.toJs, jsTruthy, jsGet, jsObjGet, AppError.toJs]
  · intro imageResult fontResult layoutResult textResult hok
    unfold chatRespond
    rw [hok]
    simp [errorResponse, jsGet, jsObjGet]

/-- Witness for the amended C2 at concrete pipeline results. -/
theorem chatRespond_font_failure_tolerated_witness :
    jsGet (chatRespond imageResultAccentRed (Result.toJs (.err .RequestFailed))
      layoutResultBubble (.str "hi")) "type" = some (.str "ui_update") :=
  ((chatRespond_font_failure_tolerated_color_failure_not).1 imageResultAccentRed
    layoutResultBubble (.str "hi") .RequestFailed rfl rfl).1

/-! ## C3: the ui_changes merge -/

/-- C3 against the code: at pipeline results where the color and font
maps share the key `--accent` (red vs blue) and the layout map binds
`--bubble`, the merged `ui_changes` of the response keeps the color
`red` of the color pipeline (the font map is never reached: `fontResult.ui_changes`
is a property of the `Result` wrapper and is `undefined`), drops the
`--bubble` of the layout map, and instead carries the own
`ok`/`value` keys of the layout `Result` wrapper — contradicting the claimed
later-overrides-earlier merge of the three pipeline maps. -/
theorem chatRespond_merge_diverges_from_claim :
    responsePieceUi (chatRespond imageResultAccentRed fontResultAccentBlue
      layoutResultBubble (.str "hello")) "--accent" = some (.str "red") ∧
    responsePieceUi (chatRespond imageResultAccentRed fontResultAccentBlue
      layoutResultBubble (.str "hello")) "--accent" ≠ some (.str "blue") ∧
    responsePieceUi (chatRespond imageResultAccentRed fontResultAccentBlue
      layoutResultBubble (.str "hello")) "--bubble" = none ∧
    responsePieceUi (chatRespond imageResultAccentRed fontResultAccentBlue
      layoutResultBubble (.str "hello")) "ok" = some (.bool true) := by
  refine ⟨rfl, ?_, rfl, rfl⟩
  intro h
  have h0 : responsePieceUi (chatRespond imageResultAccentRed fontResultAccentBlue
      layoutResultBubble (.str "hello")) "--accent" = some (.str "red") := rfl
  have h1 : JsValue.str "red" = JsValue.str "blue" := Option.some.inj (h0.symm.trans h)
  injection h1 with h2
  exact absurd h2 (by decide)

/-! ## C5: a single font-CDN fallback, no retries -/

theorem fetchFallbackCSS_spec (w : FontWorld) (u : String) :
    (fetchFallbackCSS w u).2 = [u] ∧
    ((fetchFallbackCSS w u).1 = .err .FallbackFailed ↔ primaryAttemptFails w u = true) ∧
    (∀ e, (fetchFallbackCSS w u).1 = .err e → e = .FallbackFailed) := by
  unfold fetchFallbackCSS primaryAttemptFails
  cases w.fetch u with
  | threw => simp
  | resp ok body =>
    cases ok with
    | false => simp
    | true =>
      cases hC : cssLooksInvalid body with
      | false => simp [hC]
      | true => simp [hC]

/-- C5: `fetchGoogleFontCSS` fetches the primary URL exactly once; it
fetches the fallback URL exactly once if and only if the primary attempt
fails (thrown fetch, non-OK response, or a body lacking `font-family`),
and never again; the result is the error `FallbackFailed` exactly when
both attempts fail, and no other error is ever returned. -/
theorem fetchGoogleFontCSS_single_fallback :
    ∀ (w : FontWorld) (primaryUrl fallbackUrl : String),
      (fetchGoogleFontCSS w primaryUrl fallbackUrl).2 =
        (if primaryAttemptFails w primaryUrl then [primaryUrl, fallbackUrl]
         else [primaryUrl]) ∧
      ((fetchGoogleFontCSS w primaryUrl fallbackUrl).1 = .err .FallbackFailed ↔
        (primaryAttemptFails w primaryUrl = true ∧
         primaryAttemptFails w fallbackUrl = true)) ∧
      (∀ e, (fetchGoogleFontCSS w primaryUrl fallbackUrl).1 = .err e →
        e = .FallbackFailed) := by
  intro w primaryUrl fallbackUrl
  obtain ⟨hc2, hiff, herr⟩ := fetchFallbackCSS_spec w fallbackUrl
  unfold fetchGoogleFontCSS
  cases hp : w.fetch primaryUrl with
  | threw =>
    have hfail : primaryAttemptFails w primaryUrl = true := by
      unfold primaryAttemptFails; rw [hp]
    rw [hfail]
    refine ⟨by simp [hc2], by simpa using hiff, herr⟩
  | resp ok body =>
    cases ok with
    | false =>
      have hfail : primaryAttemptFails w primaryUrl = true := by
        unfold primaryAttemptFails; rw [hp]; simp
      rw [hfail]
      refine ⟨by simp [hc2], by simpa using hiff, herr⟩
    | true =>
      cases hC : cssLooksInvalid body with
      | true =>
        have hfail : primaryAttemptFails w primaryUrl = true := by
          unfold primaryAttemptFails; rw [hp]; simp [hC]
        rw [hfail]
        refine ⟨by simp [hC, hc2], by simpa [hC] using hiff, by simpa [hC] using herr⟩
      | false =>
        have hfail : primaryAttemptFails w primaryUrl = false := by
          unfold primaryAttemptFails; rw [hp]; simp [hC]
        rw [hfail]
        simp [hC, hfail]

/-- Witness for C5 in the world where both CDN fetches throw: both URLs
are attempted, once each, and the error is `FallbackFailed`. -/
theorem fetchGoogleFontCSS_single_fallback_witness :
    FontError.FallbackFailed = .FallbackFailed ∧
    (fetchGoogleFontCSS fontWorldAllDown "p" "f").2 = ["p", "f"] :=
  ⟨(fetchGoogleFontCSS_single_fallback fontWorldAllDown "p" "f").2.2 .FallbackFailed rfl,
   rfl⟩

/-! ## C6: downsampling -/

/-- Counterexample to C6 as stated: a buffer whose metadata reports width
0 and height 50 — both at most `maxDimension = 300` — is not returned
unchanged; the JavaScript falsiness check `!metadata.width` treats the
zero width as missing metadata. -/
theorem downsample_zero_width_counterexample :
    downsample ⟨some 0, some 50⟩ 300 = .err (.MissingMetadata "(width/height)") ∧
    downsample ⟨some 0, some 50⟩ 300 ≠ .ok .original := by
  refine ⟨rfl, fun hEq => ?_⟩
  have h0 : downsample ⟨some 0, some 50⟩ 300 = .err (.MissingMetadata "(width/height)") := rfl
  exact Result.noConfusion (h0.symm.trans hEq)

theorem round_scaled_le {w maxD : Nat} (hw : 1 ≤ w)
    {s : ℚ} (hs : s ≤ (maxD : ℚ) / w) :
    round ((w : ℚ) * s) ≤ (maxD : ℤ) := by
  have hw0 : (0 : ℚ) < (w : ℚ) := by exact_mod_cast hw
  have h1 : (w : ℚ) * s ≤ (w : ℚ) * ((maxD : ℚ) / w) :=
    mul_le_mul_of_nonneg_left hs (le_of_lt hw0)
  have h2 : (w : ℚ) * ((maxD : ℚ) / w) = (maxD : ℚ) := by
    field_simp
  have h3 : (w : ℚ) * s ≤ (maxD : ℚ) := by rw [h2] at h1; exact h1
  have h4 : round ((w : ℚ) * s) ≤ round ((maxD : ℚ)) := by
    rw [round_eq, round_eq]
    exact Int.floor_le_floor (by linarith)
  rwa [round_natCast] at h4

/-- C6 amended: missing or zero-reported dimensions yield
`MissingMetadata`; a buffer whose dimensions are positive and both at
most `maxDimension` is returned unchanged; otherwise the buffer is
resized to `round(w*s) × round(h*s)` with
`s = min(maxDimension/w, maxDimension/h)`, and neither output dimension
exceeds `maxDimension`. -/
theorem downsample_spec :
    ∀ (w h maxD : Nat),
      downsample ⟨none, some h⟩ maxD = .err (.MissingMetadata "(width/height)") ∧
      downsample ⟨some w, none⟩ maxD = .err (.MissingMetadata "(width/height)") ∧
      downsample ⟨none, none⟩ maxD = .err (.MissingMetadata "(width/height)") ∧
      (w = 0 ∨ h = 0 →
        downsample ⟨some w, some h⟩ maxD = .err (.MissingMetadata "(width/height)")) ∧
      (1 ≤ w → 1 ≤ h → w ≤ maxD → h ≤ maxD →
        downsample ⟨some w, some h⟩ maxD = .ok .original) ∧
      (1 ≤ w → 1 ≤ h → maxD < w ∨ maxD < h →
        downsample ⟨some w, some h⟩ maxD =
          .ok (.resized
            (round ((w : ℚ) * min ((maxD : ℚ) / w) ((maxD : ℚ) / h)))
            (round ((h : ℚ) * min ((maxD : ℚ) / w) ((maxD : ℚ) / h)))) ∧
        round ((w : ℚ) * min ((maxD : ℚ) / w) ((maxD : ℚ) / h)) ≤ (maxD : ℤ) ∧
        round ((h : ℚ) * min ((maxD : ℚ) / w) ((maxD : ℚ) / h)) ≤ (maxD : ℤ)) := by
  intro w h maxD
  refine ⟨rfl, ?_, rfl, ?_, ?_, ?_⟩
  · unfold downsample
    simp [dimFalsy]
  · rintro (rfl | rfl) <;> simp [downsample, dimFalsy]
  · intro hw hh hwle hhle
    unfold downsample
    have hwne : ¬(w = 0) := by omega
    have hhne : ¬(h = 0) := by omega
    simp [dimFalsy, hwne, hhne, hwle, hhle]
  · intro hw hh hbig
    have hwne : ¬(w = 0) := by omega
    have hhne : ¬(h = 0) := by omega
    have hnot : ¬(w ≤ maxD ∧ h ≤ maxD) := by omega
    refine ⟨?_, round_scaled_le hw (min_le_left _ _), round_scaled_le hh (min_le_right _ _)⟩
    unfold downsample
    simp [dimFalsy, hwne, hhne, hnot]

/-- Witness for C6 at concrete metadata: a 2×1 image is left unchanged
for `maxDimension = 300`, and a 600×300 image is resized to 300×150. -/
theorem downsample_spec_witness :
    downsample ⟨some 2, some 1⟩ 300 = .ok .original ∧
    downsample ⟨some 600, some 300⟩ 300 = .ok (.resized 300 150) := by
  constructor
  · exact (downsample_spec 2 1 300).2.2.2.2.1 (by norm_num) (by norm_num)
      (by norm_num) (by norm_num)
  · have h := ((downsample_spec 600 300 300).2.2.2.2.2 (by norm_num) (by norm_num)
      (by norm_num)).1
    rw [h]
    norm_num [round_eq]

/-! ## C7: horizontal stitching -/

theorem stitchPlacements_length (maxH : Nat) :
    ∀ (pairs : List (Nat × Nat)) (left : Nat),
      (stitchPlacements maxH left pairs).length = pairs.length := by
  intro pairs
  induction pairs with
  | nil => intro left; rfl
  | cons p rest ih =>
    intro left
    cases p with
    | mk pw ph => simp [stitchPlacements, ih]

theorem stitchPlacements_meta_get (maxH : Nat) :
    ∀ (metas : List ImageMetadata) (left i : Nat) (m : ImageMetadata),
      metas.get? i = some m →
      (stitchPlacements maxH left
        ((metas.map fun mm => mm.width.getD 0).zip
          (metas.map fun mm => mm.height.getD 0))).get? i =
        some (left + ((metas.take i).map fun mm => mm.width.getD 0).sum,
              (maxH - m.height.getD 0) / 2) := by
  intro metas
  induction metas with
  | nil => intro left i m hm; cases hm
  | cons m₀ rest ih =>
    intro left i m hm
    cases i with
    | zero =>
      cases hm
      simp [stitchPlacements]
    | succ i =>
      have hrest := ih (left + m₀.width.getD 0) i m hm
      rw [List.map_cons, List.map_cons, List.zip_cons_cons]
      simp only [stitchPlacements, List.get?_cons_succ]
      rw [hrest]
      simp only [List.take_succ_cons, List.map_cons, List.sum_cons]
      congr 2
      omega

theorem le_foldr_max {l : List Nat} {x : Nat} (hx : x ∈ l) : x ≤ l.foldr max 0 := by
  induction l with
  | nil => cases hx
  | cons y ys ih =>
    rcases List.mem_cons.mp hx with h | h
    · subst h; exact le_max_left _ _
    · exact le_trans (ih h) (le_max_right _ _)

/-- C7: on a non-empty buffer list, `stitchHorizontally` produces a
canvas whose width is the sum of the individual widths and whose height
is the maximum individual height, with image `i` placed at left offset
`sum of widths of images 0..i-1` and top `floor((maxHeight - h_i)/2)`
(each height is at most the canvas height, so the centering offset is
well defined); on the empty list it returns a `StitchingError` instead. -/
theorem stitchHorizontally_spec :
    ∀ metas : List ImageMetadata,
      (metas = [] →
        stitchHorizontally metas = .err (.StitchingError "No buffers to stitch.")) ∧
      (metas ≠ [] →
        stitchHorizontally metas =
          .ok ⟨(metas.map fun m => m.width.getD 0).sum,
               (metas.map fun m => m.height.getD 0).foldr max 0,
               specStitchPlacements metas⟩ ∧
        (∀ m ∈ metas,
          m.height.getD 0 ≤ (metas.map fun mm => mm.height.getD 0).foldr max 0)) := by
  intro metas
  constructor
  · rintro rfl; rfl
  · intro hne
    constructor
    · obtain ⟨m₀, rest, rfl⟩ := List.exists_cons_of_ne_nil hne
      unfold stitchHorizontally
      simp only [List.isEmpty_cons, if_false, Bool.false_eq_true]
      have hplace : stitchPlacements
          (List.foldr max 0 (List.map (fun m => m.height.getD 0) (m₀ :: rest))) 0
          ((List.map (fun m => m.width.getD 0) (m₀ :: rest)).zip
            (List.map (fun m => m.height.getD 0) (m₀ :: rest))) =
          specStitchPlacements (m₀ :: rest) := by
        apply List.ext_get?
        intro i
        by_cases hi : i < (m₀ :: rest).length
        · have hm' : ∃ m, (m₀ :: rest).get? i = some m := by
            rw [List.get?_eq_get hi]; exact ⟨_, rfl⟩
          obtain ⟨m, hm⟩ := hm'
          rw [stitchPlacements_meta_get _ _ 0 i m hm]
          unfold specStitchPlacements
          rw [List.get?_map, List.get?_range hi]
          have hm2 := hm
          rw [List.get?_eq_getElem?] at hm2
          simp [hm2]
        · push_neg at hi
          rw [List.get?_eq_none.mpr, List.get?_eq_none.mpr]
          · unfold specStitchPlacements
            simpa using hi
          · rw [stitchPlacements_length]
            simpa using hi
      rw [hplace]
    · intro m hm
      exact le_foldr_max (List.mem_map.mpr ⟨m, hm, rfl⟩)

/-- Witness for C7 at two concrete buffers (100×60 and 50×80): a 150×80
canvas, the first image at (0, 10) and the second at (100, 0); and the
empty list errors. -/
theorem stitchHorizontally_spec_witness :
    stitchHorizontally [⟨some 100, some 60⟩, ⟨some 50, some 80⟩] =
      .ok ⟨150, 80, [(0, 10), (100, 0)]⟩ ∧
    stitchHorizontally [] = .err (.StitchingError "No buffers to stitch.") := by
  constructor
  · have h := ((stitchHorizontally_spec [⟨some 100, some 60⟩, ⟨some 50, some 80⟩]).2
      (by simp)).1
    rw [h]
    rfl
  · exact (stitchHorizontally_spec []).1 rfl

/-! ## C8: Bing image scraping -/

/-- C8: `scrapeBingImages` returns at most `numResults` URLs, as a prefix
of the list extracted from the page in order; a thrown fetch/parse
failure yields `[]`; an anchor whose `m` attribute is absent, fails to
parse as JSON, or lacks a `murl` field is skipped without affecting the
rest of the scrape. -/
theorem scrapeBingImages_spec :
    ∀ (parseJson : String → Option JsValue) (outcome : BingOutcome) (numResults : Nat),
      (scrapeBingImages parseJson outcome numResults).length ≤ numResults ∧
      (outcome = .threw → scrapeBingImages parseJson outcome numResults = []) ∧
      (∀ anchors, outcome = .page anchors →
        (scrapeBingImages parseJson outcome numResults) <+:
          anchors.filterMap (extractMurl parseJson)) ∧
      (∀ pre bad post,
        (bad = none ∨ ∃ mAttr, bad = some mAttr ∧
          (parseJson mAttr = none ∨
            ∃ mData, parseJson mAttr = some mData ∧ jsGet mData "murl" = none)) →
        scrapeBingImages parseJson (.page (pre ++ bad :: post)) numResults =
          scrapeBingImages parseJson (.page (pre ++ post)) numResults) := by
  intro parseJson outcome numResults
  refine ⟨?_, ?_, ?_, ?_⟩
  · cases outcome with
    | threw => simp [scrapeBingImages]
    | page anchors => simpa [scrapeBingImages] using List.length_take_le _ _
  · rintro rfl; rfl
  · rintro anchors rfl
    simpa [scrapeBingImages] using List.take_prefix _ _
  · intro pre bad post hbad
    have hnone : extractMurl parseJson bad = none := by
      rcases hbad with rfl | ⟨mAttr, rfl, hparse⟩
      · rfl
      · rcases hparse with hfail | ⟨mData, hsome, hnomurl⟩
        · simp [extractMurl, hfail]
        · simp [extractMurl, hsome, hnomurl]
    simp [scrapeBingImages, List.filterMap_append, List.filterMap_cons, hnone]

/-- Witness for C8: in a world where `JSON.parse` always throws, an
anchor with an unparsable attribute changes nothing, and a thrown page
fetch yields the empty list. -/
theorem scrapeBingImages_spec_witness :
    scrapeBingImages (fun _ => none) (.page ([] ++ some "x" :: [])) 3 =
      scrapeBingImages (fun _ => none) (.page ([] ++ [])) 3 ∧
    scrapeBingImages (fun _ => none) .threw 3 = [] :=
  ⟨(scrapeBingImages_spec (fun _ => none) .threw 3).2.2.2 [] (some "x") []
      (Or.inr ⟨"x", rfl, Or.inl rfl⟩),
   (scrapeBingImages_spec (fun _ => none) .threw 3).2.1 rfl⟩

/-! ## C10: the invalid-image-URL error path of the color pipeline -/

/-- Counterexample to C10 as stated: with a text entry preceding the
offending image entry, `colorPipeline` does return `InvalidImageUrl`, but
an external call — the Bing results-page scrape for the text entry — has
already been performed on that error path, so "no external call is
produced" fails. -/
theorem colorPipeline_scrape_precedes_invalid_url :
    (colorPipeline colorWorldEmpty [.text "cats", .imageUrlStr "http://x"]).1 =
      .err (.InvalidImageUrl "Expected base64 image URL") ∧
    (colorPipeline colorWorldEmpty [.text "cats", .imageUrlStr "http://x"]).2 =
      [.scrape "cats"] ∧
    (colorPipeline colorWorldEmpty [.text "cats", .imageUrlStr "http://x"]).2 ≠ [] := by
  refine ⟨rfl, rfl, ?_⟩
  intro h
  have h0 : (colorPipeline colorWorldEmpty [.text "cats", .imageUrlStr "http://x"]).2 =
      [.scrape "cats"] := rfl
  rw [h0] at h
  exact List.noConfusion h

theorem colorCollect_invalid (w : ColorWorld) :
    ∀ (pre : List ChatMessageContent) (bad : ChatMessageContent)
      (post : List ChatMessageContent),
      (∀ c ∈ pre, validColorEntry c = true) →
      validColorEntry bad = false →
      colorCollect w (pre ++ bad :: post) =
        .failed (.InvalidImageUrl "Expected base64 image URL")
          (pre.filterMap scrapeActionOf) := by
  intro pre
  induction pre with
  | nil =>
    intro bad post _ hbad
    cases bad with
    | text _ => simp [validColorEntry] at hbad
    | imageUrlStr u =>
      simp only [validColorEntry] at hbad
      simp [colorCollect, hbad]
    | imageUrlObj u d =>
      simp only [validColorEntry] at hbad
      simp [colorCollect, hbad]
  | cons c pre' ih =>
    intro bad post hpre hbad
    have hc := hpre c (List.mem_cons_self _ _)
    have hpre' : ∀ x ∈ pre', validColorEntry x = true :=
      fun x hx => hpre x (List.mem_cons_of_mem _ hx)
    cases c with
    | text s =>
      simp only [List.cons_append, colorCollect, List.append_eq]
      rw [ih bad post hpre' hbad]
      simp [scrapeActionOf]
    | imageUrlStr u =>
      have hu : u.startsWith "data:image/" = true := by
        simpa [validColorEntry] using hc
      simp only [List.cons_append, colorCollect, hu, if_true, List.append_eq]
      rw [ih bad post hpre' hbad]
      simp [scrapeActionOf]
    | imageUrlObj u d =>
      have hu : u.startsWith "data:image/" = true := by
        simpa [validColorEntry] using hc
      simp only [List.cons_append, colorCollect, hu, if_true, List.append_eq]
      rw [ih bad post hpre' hbad]
      simp [scrapeActionOf]

/-- C10 amended: when the contents hold an image entry whose URL does not
start with `data:image/`, `colorPipeline` returns `InvalidImageUrl`
before any image download, stitch, or palette request — its action trace
holds exactly the Bing scrapes for the text entries preceding the
offending entry (and in particular may be non-empty: those scrapes are
external calls that do happen). -/
theorem colorPipeline_invalid_url_amended :
    ∀ (w : ColorWorld) (pre post : List ChatMessageContent) (bad : ChatMessageContent),
      (∀ c ∈ pre, validColorEntry c = true) →
      validColorEntry bad = false →
      (colorPipeline w (pre ++ bad :: post)).1 =
        .err (.InvalidImageUrl "Expected base64 image URL") ∧
      (colorPipeline w (pre ++ bad :: post)).2 = pre.filterMap scrapeActionOf ∧
      (∀ a ∈ (colorPipeline w (pre ++ bad :: post)).2, ∃ s, a = .scrape s) := by
  intro w pre post bad hpre hbad
  have hcol := colorCollect_invalid w pre bad post hpre hbad
  refine ⟨?_, ?_, ?_⟩
  · simp [colorPipeline, hcol]
  · simp [colorPipeline, hcol]
  · intro a ha
    simp only [colorPipeline, hcol] at ha
    obtain ⟨c, hc, hEq⟩ := List.mem_filterMap.mp ha
    cases c with
    | text s => exact ⟨s, (Option.some.inj hEq).symm⟩
    | imageUrlStr u => cases hEq
    | imageUrlObj u d => cases hEq

/-- Witness for the amended C10 at a concrete request. -/
theorem colorPipeline_invalid_url_amended_witness :
    (colorPipeline colorWorldEmpty ([.text "dogs"] ++ .imageUrlStr "http://y" :: [])).2 =
      List.filterMap scrapeActionOf [.text "dogs"] :=
  (colorPipeline_invalid_url_amended colorWorldEmpty [.text "dogs"] []
    (.imageUrlStr "http://y") (by simp [validColorEntry]) rfl).2.1

/-! ## C4: the LLM client never throws and maps failures to the error enum -/

/-- C4: `sendChatRequest` followed by `parseChatResponse` always returns
either `ok` with the JSON parsed out of `choices[0].message.content`, or
a tagged error among `MissingApiKey`, `HttpError`, `FetchError`,
`NoResponseContent`, `InvalidResponseJson`; a falsy API key gives
`MissingApiKey`, a thrown fetch gives `FetchError`, a non-OK response
gives `HttpError` with its status, a missing or falsy content gives
`NoResponseContent`, and a content that does not parse as JSON gives
`InvalidResponseJson`. -/
theorem chatClientCall_total_and_enumerated :
    ∀ w : ChatWorld,
      ((∃ v, chatClientCall w = .ok v) ∨
        (∃ e, chatClientCall w = .err e ∧ isClientError e)) ∧
      (∀ v, chatClientCall w = .ok v →
        ∃ status statusText body data content,
          w.outcome = .resp true status statusText body ∧
          w.parseJson body = some data ∧
          contentOfEnvelope data = some content ∧ jsTruthy content = true ∧
          w.parseJson (jsToString content) = some v) ∧
      (apiKeyFalsy w.apiKey = true → chatClientCall w = .err .MissingApiKey) ∧
      (apiKeyFalsy w.apiKey = false → ∀ msg, w.outcome = .threw msg →
        chatClientCall w = .err (.FetchError msg)) ∧
      (apiKeyFalsy w.apiKey = false → ∀ status statusText body,
        w.outcome = .resp false status statusText body →
        ∃ detail, chatClientCall w = .err (.HttpError status statusText detail)) ∧
      (apiKeyFalsy w.apiKey = false → ∀ status statusText body data,
        w.outcome = .resp true status statusText body →
        w.parseJson body = some data →
        (contentOfEnvelope data = none ∨
          (∃ c, contentOfEnvelope data = some c ∧ jsTruthy c = false)) →
        chatClientCall w = .err .NoResponseContent) ∧
      (apiKeyFalsy w.apiKey = false → ∀ status statusText body data c,
        w.outcome = .resp true status statusText body →
        w.parseJson body = some data →
        contentOfEnvelope data = some c → jsTruthy c = true →
        w.parseJson (jsToString c) = none →
        chatClientCall w = .err .InvalidResponseJson) := by
  intro w
  refine ⟨?_, ?_, ?_, ?_, ?_, ?_, ?_⟩
  · cases hk : apiKeyFalsy w.apiKey with
    | true =>
      exact Or.inr ⟨.MissingApiKey, by simp [chatClientCall, sendChatRequest, parseChatResponse, hk],
        trivial⟩
    | false =>
      cases ho : w.outcome with
      | threw msg =>
        exact Or.inr ⟨.FetchError msg,
          by simp [chatClientCall, sendChatRequest, parseChatResponse, hk, ho], trivial⟩
      | resp ok status statusText body =>
        cases ok with
        | false =>
          refine Or.inr ⟨.HttpError status statusText
            (match w.parseJson body with
             | some j => j
             | none => .str body), ?_, trivial⟩
          simp [chatClientCall, sendChatRequest, parseChatResponse, hk, ho]
        | true =>
          cases hpb : w.parseJson body with
          | none =>
            exact Or.inr ⟨.FetchError (w.parseErrMsg body),
              by simp [chatClientCall, sendChatRequest, parseChatResponse, hk, ho, hpb], trivial⟩
          | some data =>
            cases hce : contentOfEnvelope data with
            | none =>
              exact Or.inr ⟨.NoResponseContent,
                by simp [chatClientCall, sendChatRequest, parseChatResponse, hk, ho, hpb, hce],
                trivial⟩
            | some c =>
              cases htr : jsTruthy c with
              | false =>
                exact Or.inr ⟨.NoResponseContent,
                  by simp [chatClientCall, sendChatRequest, parseChatResponse,
                    hk, ho, hpb, hce, htr], trivial⟩
              | true =>
                cases hpc : w.parseJson (jsToString c) with
                | none =>
                  exact Or.inr ⟨.InvalidResponseJson,
                    by simp [chatClientCall, sendChatRequest, parseChatResponse,
                      hk, ho, hpb, hce, htr, hpc], trivial⟩
                | some parsed =>
                  exact Or.inl ⟨parsed,
                    by simp [chatClientCall, sendChatRequest, parseChatResponse,
                      hk, ho, hpb, hce, htr, hpc]⟩
  · intro v hv
    cases hk : apiKeyFalsy w.apiKey with
    | true => simp [chatClientCall, sendChatRequest, parseChatResponse, hk] at hv
    | false =>
      cases ho : w.outcome with
      | threw msg =>
        simp [chatClientCall, sendChatRequest, parseChatResponse, hk, ho] at hv
      | resp ok status statusText body =>
        cases ok with
        | false =>
          simp [chatClientCall, sendChatRequest, parseChatResponse, hk, ho] at hv
        | true =>
          cases hpb : w.parseJson body with
          | none =>
            simp [chatClientCall, sendChatRequest, parseChatResponse, hk, ho, hpb] at hv
          | some data =>
            cases hce : contentOfEnvelope data with
            | none =>
              simp [chatClientCall, sendChatRequest, parseChatResponse,
                hk, ho, hpb, hce] at hv
            | some c =>
              cases htr : jsTruthy c with
              | false =>
                simp [chatClientCall, sendChatRequest, parseChatResponse,
                  hk, ho, hpb, hce, htr] at hv
              | true =>
                cases hpc : w.parseJson (jsToString c) with
                | none =>
                  simp [chatClientCall, sendChatRequest, parseChatResponse,
                    hk, ho, hpb, hce, htr, hpc] at hv
                | some parsed =>
                  have hv' : parsed = v := by
                    simpa [chatClientCall, sendChatRequest, parseChatResponse,
                      hk, ho, hpb, hce, htr, hpc] using hv
                  exact ⟨status, statusText, body, data, c, rfl, hpb, hce, htr,
                    hv' ▸ hpc⟩
  · intro hk
    simp [chatClientCall, sendChatRequest, parseChatResponse, hk]
  · intro hk msg ho
    simp [chatClientCall, sendChatRequest, parseChatResponse, hk, ho]
  · intro hk status statusText body ho
    refine ⟨(match w.parseJson body with
             | some j => j
             | none => .str body), ?_⟩
    simp [chatClientCall, sendChatRequest, parseChatResponse, hk, ho]
  · intro hk status statusText body data ho hpb hce
    rcases hce with hce | ⟨c, hce, htr⟩
    · simp [chatClientCall, sendChatRequest, parseChatResponse, hk, ho, hpb, hce]
    · simp [chatClientCall, sendChatRequest, parseChatResponse, hk, ho, hpb, hce, htr]
  · intro hk status statusText body data c ho hpb hce htr hpc
    simp [chatClientCall, sendChatRequest, parseChatResponse, hk, ho, hpb, hce, htr, hpc]

/-- Witness for C4: the missing-key world errors with `MissingApiKey`,
and a fully successful world parses the content. -/
theorem chatClientCall_total_and_enumerated_witness :
    chatClientCall chatWorldNoKey = .err .MissingApiKey ∧
    chatClientCall chatWorldOk = .ok .null :=
  ⟨(chatClientCall_total_and_enumerated chatWorldNoKey).2.2.1 rfl, rfl⟩

/-! ## C9: chat-message parsing -/

theorem checkContentItems_ok :
    ∀ (items : List JsValue) (i j : Nat),
      items.all specContentItemOk = true → checkContentItems i j items = none := by
  intro items
  induction items with
  | nil => intro i j _; rfl
  | cons item rest ih =>
    intro i j hall
    rw [List.all_cons, Bool.and_eq_true] at hall
    obtain ⟨hitem, hrest⟩ := hall
    rw [specContentItemOk, Bool.and_eq_true] at hitem
    obtain ⟨hobj, htype⟩ := hitem
    rcases hty : jsGet item "type" with _ | v
    · rw [hty] at htype; simp at htype
    · cases v with
      | str s =>
        unfold checkContentItems
        rw [hobj, hty]
        simpa using ih i (j + 1) hrest
      | num n => rw [hty] at htype; simp at htype
      | bool b => rw [hty] at htype; simp at htype
      | null => rw [hty] at htype; simp at htype
      | arr elems => rw [hty] at htype; simp at htype
      | obj fields => rw [hty] at htype; simp at htype

theorem checkContentItems_bad :
    ∀ (items : List JsValue) (i j : Nat),
      items.all specContentItemOk = false →
      ∃ d a b, checkContentItems i j items = some (.InvalidChatMessages d) ∧
        d = a ++ toString i ++ b := by
  intro items
  induction items with
  | nil => intro i j hall; simp at hall
  | cons item rest ih =>
    intro i j hall
    cases hitem : specContentItemOk item with
    | false =>
      rw [specContentItemOk] at hitem
      cases hobj : jsIsObjectNonNull item with
      | false =>
        refine ⟨_, "Content at index " ++ toString j ++ " in message ",
          " is not a valid object.", ?_, rfl⟩
        unfold checkContentItems
        rw [hobj]
        simp
      | true =>
        have htype : (match jsGet item "type" with
            | some (.str _) => true
            | _ => false) = false := by
          rw [hobj] at hitem
          simpa using hitem
        refine ⟨_, "Content at index " ++ toString j ++ " in message ",
          " is missing a valid \x27type\x27 property.", ?_, rfl⟩
        unfold checkContentItems
        rw [hobj]
        rcases hty : jsGet item "type" with _ | v
        · simp
        · rw [hty] at htype
          cases v <;> simp_all
    | true =>
      have hrest : rest.all specContentItemOk = false := by
        rw [List.all_cons, hitem] at hall
        simpa using hall
      obtain ⟨d, a, b, herr, hd⟩ := ih i (j + 1) hrest
      refine ⟨d, a, b, ?_, hd⟩
      rw [specContentItemOk, Bool.and_eq_true] at hitem
      obtain ⟨hobj, htype⟩ := hitem
      rcases hty : jsGet item "type" with _ | v
      · rw [hty] at htype; simp at htype
      · cases v with
        | str s =>
          unfold checkContentItems
          rw [hobj, hty]
          simpa using herr
        | num n => rw [hty] at htype; simp at htype
        | bool b => rw [hty] at htype; simp at htype
        | null => rw [hty] at htype; simp at htype
        | arr elems => rw [hty] at htype; simp at htype
        | obj fields => rw [hty] at htype; simp at htype

theorem parseMessageAt_ok (i : Nat) {msg : JsValue} (h : specMessageOk msg = true) :
    parseMessageAt i msg = .ok (specNormalizeMsg msg) := by
  rw [specMessageOk, Bool.and_eq_true] at h
  obtain ⟨hrole, hcontent⟩ := h
  rcases hro : jsGet msg "role" with _ | v
  · rw [hro] at hrole; simp at hrole
  · cases v with
    | str r =>
      have hobj : jsIsObjectNonNull msg = true := by
        cases msg with
        | obj fields => rfl
        | arr elems => rw [show jsGet (JsValue.arr elems) "role" = none from rfl] at hro; cases hro
        | str s => rw [show jsGet (JsValue.str s) "role" = none from rfl] at hro; cases hro
        | num n => rw [show jsGet (JsValue.num n) "role" = none from rfl] at hro; cases hro
        | bool b => rw [show jsGet (JsValue.bool b) "role" = none from rfl] at hro; cases hro
        | null => rw [show jsGet JsValue.null "role" = none from rfl] at hro; cases hro
      rcases hco : jsGet msg "content" with _ | c
      · rw [hco] at hcontent; simp at hcontent
      · cases c with
        | str s =>
          unfold parseMessageAt specNormalizeMsg
          rw [hobj, hro, hco]
          simp
        | arr items =>
          rw [hco] at hcontent
          have hall : items.all specContentItemOk = true := by simpa using hcontent
          unfold parseMessageAt specNormalizeMsg
          rw [hobj, hro, hco]
          simp [checkContentItems_ok items i 0 hall]
        | num n => rw [hco] at hcontent; simp at hcontent
        | bool b => rw [hco] at hcontent; simp at hcontent
        | null => rw [hco] at hcontent; simp at hcontent
        | obj fields => rw [hco] at hcontent; simp at hcontent
    | num n => rw [hro] at hrole; simp at hrole
    | bool b => rw [hro] at hrole; simp at hrole
    | null => rw [hro] at hrole; simp at hrole
    | arr elems => rw [hro] at hrole; simp at hrole
    | obj fields => rw [hro] at hrole; simp at hrole

theorem parseMessageAt_bad (i : Nat) {msg : JsValue} (h : specMessageOk msg = false) :
    ∃ d a b, parseMessageAt i msg = .err (.InvalidChatMessages d) ∧
      d = a ++ toString i ++ b := by
  cases hobj : jsIsObjectNonNull msg with
  | false =>
    refine ⟨_, "Message at index ", " is not a valid object.", ?_, rfl⟩
    unfold parseMessageAt
    rw [hobj]
    simp
  | true =>
    rcases hro : jsGet msg "role" with _ | v
    · refine ⟨_, "Message at index ", " is missing a valid \x27role\x27 property.", ?_, rfl⟩
      unfold parseMessageAt
      rw [hobj, hro]
      simp
    · cases v with
      | str r =>
        rcases hco : jsGet msg "content" with _ | c
        · refine ⟨_, "Message at index ",
            " is missing the \x27content\x27 property.", ?_, rfl⟩
          unfold parseMessageAt
          rw [hobj, hro, hco]
          simp
        · cases c with
          | str s =>
            exfalso
            rw [specMessageOk, hro, hco] at h
            simp at h
          | arr items =>
            have hall : items.all specContentItemOk = false := by
              rw [specMessageOk, hro, hco] at h
              simpa using h
            obtain ⟨d, a, b, herr, hd⟩ := checkContentItems_bad items i 0 hall
            refine ⟨d, a, b, ?_, hd⟩
            unfold parseMessageAt
            rw [hobj, hro, hco]
            simp [herr]
          | num n =>
            refine ⟨_, "Message at index ", " has an invalid \x27content\x27 type.", ?_, rfl⟩
            unfold parseMessageAt
            rw [hobj, hro, hco]
            simp
          | bool b =>
            refine ⟨_, "Message at index ", " has an invalid \x27content\x27 type.", ?_, rfl⟩
            unfold parseMessageAt
            rw [hobj, hro, hco]
            simp
          | null =>
            refine ⟨_, "Message at index ", " has an invalid \x27content\x27 type.", ?_, rfl⟩
            unfold parseMessageAt
            rw [hobj, hro, hco]
            simp
          | obj fields =>
            refine ⟨_, "Message at index ", " has an invalid \x27content\x27 type.", ?_, rfl⟩
            unfold parseMessageAt
            rw [hobj, hro, hco]
            simp
      | num n =>
        refine ⟨_, "Message at index ", " is missing a valid \x27role\x27 property.", ?_, rfl⟩
        unfold parseMessageAt
        rw [hobj, hro]
        simp
      | bool b =>
        refine ⟨_, "Message at index ", " is missing a valid \x27role\x27 property.", ?_, rfl⟩
        unfold parseMessageAt
        rw [hobj, hro]
        simp
      | null =>
        refine ⟨_, "Message at index ", " is missing a valid \x27role\x27 property.", ?_, rfl⟩
        unfold parseMessageAt
        rw [hobj, hro]
        simp
      | arr elems =>
        refine ⟨_, "Message at index ", " is missing a valid \x27role\x27 property.", ?_, rfl⟩
        unfold parseMessageAt
        rw [hobj, hro]
        simp
      | obj fields =>
        refine ⟨_, "Message at index ", " is missing a valid \x27role\x27 property.", ?_, rfl⟩
        unfold parseMessageAt
        rw [hobj, hro]
        simp

theorem parseMessagesLoop_ok :
    ∀ (msgs : List JsValue) (k : Nat),
      msgs.all specMessageOk = true →
      parseMessagesLoop k msgs = .ok (msgs.map specNormalizeMsg) := by
  intro msgs
  induction msgs with
  | nil => intro k _; rfl
  | cons m rest ih =>
    intro k hall
    rw [List.all_cons, Bool.and_eq_true] at hall
    obtain ⟨hm, hrest⟩ := hall
    unfold parseMessagesLoop
    rw [parseMessageAt_ok k hm, ih (k + 1) hrest]
    simp

theorem parseMessagesLoop_bad :
    ∀ (msgs : List JsValue) (k : Nat),
      msgs.all specMessageOk = false →
      ∃ idx m d a b,
        msgs.get? idx = some m ∧ specMessageOk m = false ∧
        parseMessagesLoop k msgs = .err (.InvalidChatMessages d) ∧
        d = a ++ toString (k + idx) ++ b := by
  intro msgs
  induction msgs with
  | nil => intro k hall; simp at hall
  | cons m rest ih =>
    intro k hall
    cases hm : specMessageOk m with
    | false =>
      obtain ⟨d, a, b, herr, hd⟩ := parseMessageAt_bad k hm
      refine ⟨0, m, d, a, b, rfl, hm, ?_, ?_⟩
      · unfold parseMessagesLoop
        rw [herr]
      · rw [Nat.add_zero]; exact hd
    | true =>
      have hrest : rest.all specMessageOk = false := by
        rw [List.all_cons, hm] at hall
        simpa using hall
      obtain ⟨idx, m', d, a, b, hget, hbad, herr, hd⟩ := ih (k + 1) hrest
      refine ⟨idx + 1, m', d, a, b, ?_, hbad, ?_, ?_⟩
      · simpa using hget
      · unfold parseMessagesLoop
        rw [parseMessageAt_ok k hm, herr]
      · rw [show k + (idx + 1) = k + 1 + idx from by omega]; exact hd

theorem parseMessagesTarget_spec (t : JsValue) :
    ((∃ msgs, parseMessagesTarget t = .ok msgs) ↔ specTargetOk t = true) ∧
    (specTargetOk t = true → parseMessagesTarget t = .ok (specNormalize t)) ∧
    (∀ e, parseMessagesTarget t = .err e → ∃ d, e = .InvalidChatMessages d) ∧
    ((wrapMessages t).isEmpty = false →
      (wrapMessages t).all specMessageOk = false →
      ∃ idx m d a b,
        (wrapMessages t).get? idx = some m ∧ specMessageOk m = false ∧
        parseMessagesTarget t = .err (.InvalidChatMessages d) ∧
        d = a ++ toString idx ++ b) := by
  cases hw : (wrapMessages t).isEmpty with
  | true =>
    have hempty : parseMessagesTarget t =
        .err (.InvalidChatMessages "Input does not contain any chat messages.") := by
      simp [parseMessagesTarget, hw]
    refine ⟨?_, ?_, ?_, ?_⟩
    · constructor
      · rintro ⟨msgs, hok⟩; rw [hempty] at hok; cases hok
      · intro hspec; rw [specTargetOk, hw] at hspec; simp at hspec
    · intro hspec; rw [specTargetOk, hw] at hspec; simp at hspec
    · intro e he; rw [hempty] at he; exact ⟨_, (Result.err.inj he).symm⟩
    · intro hfalse; cases hfalse
  | false =>
    have hloop : parseMessagesTarget t = parseMessagesLoop 0 (wrapMessages t) := by
      simp [parseMessagesTarget, hw]
    cases hall : (wrapMessages t).all specMessageOk with
    | true =>
      have hok := parseMessagesLoop_ok (wrapMessages t) 0 hall
      refine ⟨?_, ?_, ?_, ?_⟩
      · constructor
        · intro _; rw [specTargetOk, hw, hall]; rfl
        · intro _; exact ⟨_, by rw [hloop, hok]⟩
      · intro _; rw [hloop, hok]; rfl
      · intro e he; rw [hloop, hok] at he; cases he
      · intro _ hfalse; cases hfalse
    | false =>
      obtain ⟨idx, m, d, a, b, hget, hbad, herr, hd⟩ :=
        parseMessagesLoop_bad (wrapMessages t) 0 hall
      refine ⟨?_, ?_, ?_, ?_⟩
      · constructor
        · rintro ⟨msgs, hok⟩; rw [hloop, herr] at hok; cases hok
        · intro hspec; rw [specTargetOk, hw, hall] at hspec; simp at hspec
      · intro hspec; rw [specTargetOk, hw, hall] at hspec; simp at hspec
      · intro e he
        rw [hloop, herr] at he
        exact ⟨d, (Result.err.inj he).symm⟩
      · intro _ _
        refine ⟨idx, m, d, a, b, hget, hbad, ?_, ?_⟩
        · rw [hloop]; exact herr
        · rw [Nat.zero_add] at hd; exact hd

/-- C9: `parseChatMessages` succeeds exactly when the value at the given
path exists and wraps (a single message becoming a one-element list) to a
non-empty list of messages each carrying a string `role` and a `content`
that is a string or an array of objects each carrying a string `type`;
on success the messages are returned normalized, with a plain-string
content wrapped as `[{type: "text", text: ...}]`; every failure is an
`InvalidChatMessages` error, and a failure caused by an invalid message
names the index of that message in its detail. -/
theorem parseChatMessages_spec :
    ∀ (input : JsValue) (path : Option (List String)),
      ((∃ msgs, parseChatMessages input path = .ok msgs) ↔
        (∃ t, resolvedTarget input path = some t ∧ specTargetOk t = true)) ∧
      (∀ t, resolvedTarget input path = some t → specTargetOk t = true →
        parseChatMessages input path = .ok (specNormalize t)) ∧
      (∀ e, parseChatMessages input path = .err e →
        ∃ d, e = .InvalidChatMessages d) ∧
      (∀ t, resolvedTarget input path = some t →
        (wrapMessages t).isEmpty = false →
        (wrapMessages t).all specMessageOk = false →
        ∃ idx m d a b,
          (wrapMessages t).get? idx = some m ∧ specMessageOk m = false ∧
          parseChatMessages input path = .err (.InvalidChatMessages d) ∧
          d = a ++ toString idx ++ b) := by
  intro input path
  have hsplit : (∃ t, resolvedTarget input path = some t ∧
        parseChatMessages input path = parseMessagesTarget t) ∨
      (resolvedTarget input path = none ∧ ∃ p, path = some p ∧
        parseChatMessages input path = .err (.InvalidChatMessages
          ("Could not resolve path " ++ String.intercalate " -> " p ++
            " on the input object."))) := by
    cases path with
    | none => exact Or.inl ⟨input, rfl, rfl⟩
    | some p =>
      cases hp : p.isEmpty with
      | true =>
        exact Or.inl ⟨input, by simp [resolvedTarget, hp],
          by simp [parseChatMessages, hp]⟩
      | false =>
        cases ht : traversePath input p with
        | none =>
          exact Or.inr ⟨by simp [resolvedTarget, hp, ht], p, rfl,
            by simp [parseChatMessages, hp, ht]⟩
        | some t =>
          exact Or.inl ⟨t, by simp [resolvedTarget, hp, ht],
            by simp [parseChatMessages, hp, ht]⟩
  rcases hsplit with ⟨t, hres, hparse⟩ | ⟨hres, p, hpath, hparse⟩
  · obtain ⟨hiff, hnorm, herrC, hidx⟩ := parseMessagesTarget_spec t
    refine ⟨?_, ?_, ?_, ?_⟩
    · rw [hparse]
      constructor
      · intro hok
        exact ⟨t, hres, hiff.mp hok⟩
      · rintro ⟨t', hres', hspec'⟩
        rw [hres] at hres'
        obtain rfl := Option.some.inj hres'
        exact hiff.mpr hspec'
    · intro t' hres' hspec
      rw [hres] at hres'
      obtain rfl := Option.some.inj hres'
      rw [hparse]
      exact hnorm hspec
    · intro e he
      rw [hparse] at he
      exact herrC e he
    · intro t' hres' hne hall
      rw [hres] at hres'
      obtain rfl := Option.some.inj hres'
      obtain ⟨idx, m, d, a, b, h1, h2, h3, h4⟩ := hidx hne hall
      exact ⟨idx, m, d, a, b, h1, h2, by rw [hparse]; exact h3, h4⟩
  · refine ⟨?_, ?_, ?_, ?_⟩
    · rw [hparse]
      constructor
      · rintro ⟨msgs, h⟩; cases h
      · rintro ⟨t, ht, _⟩; rw [hres] at ht; cases ht
    · intro t ht; rw [hres] at ht; cases ht
    · intro e he
      rw [hparse] at he
      exact ⟨_, (Result.err.inj he).symm⟩
    · intro t ht; rw [hres] at ht; cases ht

/-- Witness for C9: a request body holding one user message with string
content parses to the normalized one-message list. -/
theorem parseChatMessages_spec_witness :
    parseChatMessages chatInputSimple (some ["messages"]) =
      .ok (specNormalize (.arr [.obj [("role", .str "user"), ("content", .str "hi")]])) :=
  (parseChatMessages_spec chatInputSimple (some ["messages"])).2.1
    (.arr [.obj [("role", .str "user"), ("content", .str "hi")]]) rfl rfl

end GenUI
